import Mathlib

set_option autoImplicit false

/-! Verification of the screen-space block-assignment and captioning core of
the Maya plugin `generate_semantics.py`.  The host API (scene queries, camera
matrices, `M3dView.viewToWorld`) is injected as explicit parameters; all other
logic is translated directly from the source.  Python floats are modelled as
exact rationals. -/

namespace GenerateSemantics

/-- Python `int()` applied to a float: truncation toward zero. -/
def pyInt (q : ℚ) : ℤ := if 0 ≤ q then ⌊q⌋ else -⌊-q⌋

/-- Left-pad a string with the character 0 up to width `w` (the digit part of
the Python format `{:06d}`). -/
def zeroPad (w : ℕ) (s : String) : String :=
  ⟨List.replicate (w - s.length) '0'⟩ ++ s

/-- Python `{:06d}` formatting of an integer: minimum total width 6,
zero-padded after the sign. -/
def format06 (n : ℤ) : String :=
  if n < 0 then "-" ++ zeroPad 5 (toString n.natAbs) else zeroPad 6 (toString n.natAbs)

/-- Python `sep.join(s)` for a string argument `s`: the separator is placed
between the individual characters of `s`. -/
def pyStrJoin (sep : String) (s : String) : String :=
  String.intercalate sep (s.data.map fun c => String.singleton c)

/-- Errors the script can raise: division by zero in the pre-frame setup,
and indexing an empty list in the per-frame mesh loop. -/
inductive PyError where
  | zeroDivisionError
  | indexError
  deriving DecidableEq

/-- Python float division: raises `ZeroDivisionError` on a zero divisor. -/
def pyDiv (a b : ℚ) : Except PyError ℚ :=
  if b = 0 then .error .zeroDivisionError else .ok (a / b)

/-- A homogeneous point (row vector), as Maya's `MPoint`. -/
structure Vec4 where
  x : ℚ
  y : ℚ
  z : ℚ
  w : ℚ
  deriving DecidableEq

/-- A 4×4 matrix given by its rows (Maya row-vector convention). -/
structure Mat4 where
  r0 : Vec4
  r1 : Vec4
  r2 : Vec4
  r3 : Vec4
  deriving DecidableEq

/-- Row vector times matrix: Maya's `MPoint * MMatrix`. -/
def vecMatMul (p : Vec4) (m : Mat4) : Vec4 where
  x := p.x * m.r0.x + p.y * m.r1.x + p.z * m.r2.x + p.w * m.r3.x
  y := p.x * m.r0.y + p.y * m.r1.y + p.z * m.r2.y + p.w * m.r3.y
  z := p.x * m.r0.z + p.y * m.r1.z + p.z * m.r2.z + p.w * m.r3.z
  w := p.x * m.r0.w + p.y * m.r1.w + p.z * m.r2.w + p.w * m.r3.w

/-- The identity matrix (a trivial camera). -/
def idMat4 : Mat4 where
  r0 := ⟨1, 0, 0, 0⟩
  r1 := ⟨0, 1, 0, 0⟩
  r2 := ⟨0, 0, 1, 0⟩
  r3 := ⟨0, 0, 0, 1⟩

/-- `worldSpaceToScreenSpace`: `mPoint = worldPoint * camInvMtx * projMtx`,
then `x = mPoint[0]/mPoint[3]/2 + .5` and `y = 1 - (mPoint[1]/mPoint[3]/2 + .5)`.
The caller guarantees a nonzero w component. -/
def worldSpaceToScreenSpace (camInvMtx projMtx : Mat4) (worldPoint : Vec4) : ℚ × ℚ :=
  let mPoint := vecMatMul (vecMatMul worldPoint camInvMtx) projMtx
  (mPoint.x / mPoint.w / 2 + 1/2, 1 - (mPoint.y / mPoint.w / 2 + 1/2))

/-- `screenSpaceToWorldSpace`: the host's `M3dView.viewToWorld(x, y, ...)` is
the injected `view`; the source truncates the two screen coordinates with
`int()` and passes component 0 of `screenPoint` as x and component 1 as y. -/
def screenSpaceToWorldSpace (view : ℤ → ℤ → ℚ × ℚ × ℚ) (screenPoint : ℚ × ℚ) : ℚ × ℚ × ℚ :=
  view (pyInt screenPoint.1) (pyInt screenPoint.2)

/-- `xDiv = float(resWidth) / blockDim[0]`. -/
def xDivQ (resWidth blockDim0 : ℕ) : ℚ := (resWidth : ℚ) / (blockDim0 : ℚ)

/-- `yDiv = float(resHeight) / blockDim[1]`. -/
def yDivQ (resHeight blockDim1 : ℕ) : ℚ := (resHeight : ℚ) / (blockDim1 : ℚ)

/-- Number of block rows: the block loop runs `for h in range(int(yDiv))`. -/
def rowsOf (resHeight blockDim1 : ℕ) : ℕ := (pyInt (yDivQ resHeight blockDim1)).toNat

/-- Number of block columns: the inner loop runs `for w in range(int(xDiv))`. -/
def colsOf (resWidth blockDim0 : ℕ) : ℕ := (pyInt (xDivQ resWidth blockDim0)).toNat

/-- One grid cell `[[left, right], [top, bottom]]` exactly as the block loop
computes it: `top = h / yDiv`, `bottom = (h + 1) / yDiv`, `left = w / xDiv`,
`right = (w + 1) / xDiv`. -/
def blockRect (resWidth resHeight blockDim0 blockDim1 : ℕ) (h w : ℕ) : (ℚ × ℚ) × (ℚ × ℚ) :=
  (((w : ℚ) / xDivQ resWidth blockDim0, ((w : ℚ) + 1) / xDivQ resWidth blockDim0),
   ((h : ℚ) / yDivQ resHeight blockDim1, ((h : ℚ) + 1) / yDivQ resHeight blockDim1))

/-- The nested `blocks` list built per frame (row-major, top row first). -/
def buildBlocks (xDiv yDiv : ℚ) : List (List ((ℚ × ℚ) × (ℚ × ℚ))) :=
  (List.range (pyInt yDiv).toNat).map fun (h : ℕ) =>
    (List.range (pyInt xDiv).toNat).map fun (w : ℕ) =>
      (((w : ℚ) / xDiv, ((w : ℚ) + 1) / xDiv), ((h : ℚ) / yDiv, ((h : ℚ) + 1) / yDiv))

/-- The pre-frame-loop setup of `generateSemantics`: `xDiv = resWidth / dim`
and `yDiv = resHeight / dim` (Python raises `ZeroDivisionError` when
`dim = 0`); returns `(int(yDiv), int(xDiv))`, the per-axis block counts the
frame loop iterates with.  The source performs no other validation of the
configuration. -/
def gridSetup (resWidth resHeight dim : ℤ) : Except PyError (ℤ × ℤ) := do
  let xDiv ← pyDiv (resWidth : ℚ) (dim : ℚ)
  let yDiv ← pyDiv (resHeight : ℚ) (dim : ℚ)
  pure (pyInt yDiv, pyInt xDiv)

/-- `len(blocks[0])`, evaluated by the mesh loop for every mesh's index
`bounds`: Python raises `IndexError` when `blocks` is empty. -/
def lenBlocksRow0 (blocks : List (List ((ℚ × ℚ) × (ℚ × ℚ)))) : Except PyError ℕ :=
  match blocks with
  | [] => .error .indexError
  | r :: _ => .ok r.length

/-- Setup followed by the frame loop: the `xDiv`/`yDiv` divisions run once,
before any frame, and each frame then rebuilds the same `blocks` grid (the
per-frame mesh processing needs the host scene and is not modelled here).  A
setup error therefore aborts with no frame processed. -/
def runSemantics (resWidth resHeight dim : ℤ) (frameCount : ℕ) :
    Except PyError (List (List (List ((ℚ × ℚ) × (ℚ × ℚ))))) := do
  let _ ← gridSetup resWidth resHeight dim
  pure ((List.range frameCount).map fun _ =>
    buildBlocks ((resWidth : ℚ) / (dim : ℚ)) ((resHeight : ℚ) / (dim : ℚ)))

/-- The 8 corners of the world-space bounding box
`(xmin, ymin, zmin, xmax, ymax, zmax)` as homogeneous points, in source
order. -/
def bbPoints : ℚ × ℚ × ℚ × ℚ × ℚ × ℚ → List Vec4
  | (xmin, ymin, zmin, xmax, ymax, zmax) =>
    [⟨xmin, ymin, zmin, 1⟩, ⟨xmin, ymin, zmax, 1⟩,
     ⟨xmin, ymax, zmin, 1⟩, ⟨xmin, ymax, zmax, 1⟩,
     ⟨xmax, ymin, zmin, 1⟩, ⟨xmax, ymin, zmax, 1⟩,
     ⟨xmax, ymax, zmin, 1⟩, ⟨xmax, ymax, zmax, 1⟩]

/-- The four running screen-space extrema of one mesh. -/
structure ScreenBounds where
  left : ℚ
  right : ℚ
  top : ℚ
  bottom : ℚ
  deriving DecidableEq

/-- One update step of the extrema loop (the four `if` comparisons against the
projected point `P`). -/
def sbStep (b : ScreenBounds) (P : ℚ × ℚ) : ScreenBounds :=
  ⟨min b.left P.1, max b.right P.1, min b.top P.2, max b.bottom P.2⟩

/-- The extrema loop over the projected corner points, starting from
`left, right, top, bottom = 1.0, 0.0, 1.0, 0.0`. -/
def screenBounds (pts : List (ℚ × ℚ)) : ScreenBounds :=
  pts.foldl sbStep ⟨1, 0, 1, 0⟩

/-- `if left < 0.0 or left >= 1.0: left = 0.0` (likewise for `top`). -/
def clampMin (v : ℚ) : ℚ := if v < 0 ∨ 1 ≤ v then 0 else v

/-- `if right > 1.0 or right <= 0.0: right = 1.0` (likewise for `bottom`). -/
def clampMax (v : ℚ) : ℚ := if 1 < v ∨ v ≤ 0 then 1 else v

/-- Lower cell index along one axis: `int(v * n) - int(border)` followed by
the upper-side clamp `if b > n - 1: b = n - 1`.  The source has no lower-side
clamp. -/
def axisLo (v : ℚ) (n border : ℕ) : ℤ :=
  min (pyInt (clampMin v * (n : ℚ)) - (border : ℤ)) ((n : ℤ) - 1)

/-- Upper cell index along one axis: `int(v * n) + 1 + int(border)` followed
by the upper-side clamp `if b > n - 1: b = n - 1`. -/
def axisHi (v : ℚ) (n border : ℕ) : ℤ :=
  min (pyInt (clampMax v * (n : ℚ)) + 1 + (border : ℤ)) ((n : ℤ) - 1)

/-- The `bounds` quadruple of one mesh
`[colMin, colMax, rowMin, rowMax]`. -/
structure CellBounds where
  colMin : ℤ
  colMax : ℤ
  rowMin : ℤ
  rowMax : ℤ
  deriving DecidableEq

/-- The index `bounds` of one mesh whose projected corner points are `pts`:
`[int(left*cols) - border, int(right*cols) + 1 + border,
int(top*rows) - border, int(bottom*rows) + 1 + border]`, each entry clamped
to at most `n - 1` on the upper side only. -/
def mapBounds (pts : List (ℚ × ℚ)) (cols rows border : ℕ) : CellBounds where
  colMin := axisLo (screenBounds pts).left cols border
  colMax := axisHi (screenBounds pts).right cols border
  rowMin := axisLo (screenBounds pts).top rows border
  rowMax := axisHi (screenBounds pts).bottom rows border

/-- Cell `(i, j)` receives the mesh: the assignment loops run
`for i in range(bounds[2], bounds[3] + 1)` and
`for j in range(bounds[0], bounds[1] + 1)`. -/
def assignedCell (pts : List (ℚ × ℚ)) (cols rows border : ℕ) (i j : ℤ) : Prop :=
  (mapBounds pts cols rows border).rowMin ≤ i ∧ i ≤ (mapBounds pts cols rows border).rowMax ∧
  (mapBounds pts cols rows border).colMin ≤ j ∧ j ≤ (mapBounds pts cols rows border).colMax

instance (pts : List (ℚ × ℚ)) (cols rows border : ℕ) (i j : ℤ) :
    Decidable (assignedCell pts cols rows border i j) := by
  unfold assignedCell; exact inferInstance

/-- The radicand of `postionDistance`, the source's Euclidean distance
`((a0-b0)**2 + (a1-b1)**2 + (a2-b2)**2)**0.5`. -/
def postionDistanceSq (posA posB : ℚ × ℚ × ℚ) : ℚ :=
  (posA.1 - posB.1) ^ 2 + (posA.2.1 - posB.2.1) ^ 2 + (posA.2.2 - posB.2.2) ^ 2

/-- `int(d * 1e6)` for the distance `d = sqrt s`: the exact value is
`⌊10^6 * sqrt s⌋ = Nat.sqrt ⌊10^12 * s⌋` (see `microDist_eq_floor`). -/
def microDist (s : ℚ) : ℕ := Nat.sqrt (pyInt (s * 10 ^ 12)).toNat

/-- One caption: `'{} with dist {:06d}'.format(mesh, int(d * 1e6))`. -/
def captionFor (mesh : String) (meshPos worldPoint : ℚ × ℚ × ℚ) : String :=
  mesh ++ " with dist " ++ format06 (microDist (postionDistanceSq meshPos worldPoint))

/-- `extractSemantics(meshes, screenPoint, neighbors, border)`.  The mesh
positions (`cmds.xform`) and the host's `viewToWorld` are injected as
`meshPos` and `view`.  Each mesh contributes the singleton list
`semanticsForMesh = [caption]`; the `neighbors` and `border` parameters are
accepted but never read, and the unused translation/rotation/scaling queries
of the source are omitted. -/
def extractSemantics (meshPos : String → ℚ × ℚ × ℚ) (view : ℤ → ℤ → ℚ × ℚ × ℚ)
    (meshes : List String) (screenPoint : ℚ × ℚ)
    (neighbors : List String) (border : ℚ) : List (List String) :=
  meshes.map fun mesh =>
    [captionFor mesh (meshPos mesh) (screenSpaceToWorldSpace view screenPoint)]

/-- `screenPoint = blockDim[1] * (i + 0.5), blockDim[0] * (j + 0.5)` for the
cell in row `i`, column `j`. -/
def screenPointFor (blockDim0 blockDim1 : ℕ) (i j : ℕ) : ℚ × ℚ :=
  ((blockDim1 : ℚ) * ((i : ℚ) + 1/2), (blockDim0 : ℚ) * ((j : ℚ) + 1/2))

/-- The block file key of the cell in row `i`, column `j`:
`int(i * xDiv + j + 1)`. -/
def fileIndex (xDiv : ℚ) (i j : ℕ) : ℤ := pyInt ((i : ℚ) * xDiv + (j : ℚ) + 1)

/-- The `else` branch of the caption writer: caption `k` of the row is
written with `''.join(caption)` when `k = 0` and with `' and '.join(caption)`
afterwards; Python's `str.join` applied to a string interleaves the separator
between its characters. -/
def writeRowElse (row : List String) : String :=
  String.join (row.enum.map fun kc =>
    pyStrJoin (if kc.1 = 0 then "" else " and ") kc.2)

/-- The per-cell text written inside `with open(blockPath, 'w')`: one
iteration per entry of `semantics`, each followed by a newline. -/
def writeBlockText (semantics : List (List String)) : String :=
  semantics.foldl (fun acc row =>
    acc ++ (if row.length ≤ 1 then String.join row else writeRowElse row) ++ "\n") ""

/-- The projected corner points of a small box centred in the bottom-right
screen quadrant, seen through a trivial (identity) camera. -/
def scenarioPts : List (ℚ × ℚ) :=
  (bbPoints (1/5, -4/5, 0, 4/5, -1/5, 0)).map (worldSpaceToScreenSpace idMat4 idMat4)

/-- Grid-cell geometry as the source actually computes it: the cell counts
are the truncated quotients, but the cell edges divide by `xDiv = W/b0` and
`yDiv = H/b1` (not by the cell counts), so the cells abut without gaps or
overlaps and tile `[0, cols*b0/W] × [0, rows*b1/H]` in row-major top-to-bottom
order; that square is `[0,1] × [0,1]` exactly when `b0 ∣ W` and `b1 ∣ H`. -/
def GridCellsSpec (W H b0 b1 : ℕ) : Prop :=
  rowsOf H b1 = H / b1 ∧ colsOf W b0 = W / b0 ∧
  buildBlocks (xDivQ W b0) (yDivQ H b1)
    = (List.range (rowsOf H b1)).map
        (fun h => (List.range (colsOf W b0)).map (blockRect W H b0 b1 h)) ∧
  (∀ h w : ℕ, blockRect W H b0 b1 h w
    = (((w : ℚ) * (b0 : ℚ) / (W : ℚ), ((w : ℚ) + 1) * (b0 : ℚ) / (W : ℚ)),
       ((h : ℚ) * (b1 : ℚ) / (H : ℚ), ((h : ℚ) + 1) * (b1 : ℚ) / (H : ℚ)))) ∧
  (∀ h w : ℕ, (blockRect W H b0 b1 h w).2.1 < (blockRect W H b0 b1 h w).2.2) ∧
  (∀ h w : ℕ, (blockRect W H b0 b1 h w).1.1 < (blockRect W H b0 b1 h w).1.2) ∧
  (∀ h w : ℕ, (blockRect W H b0 b1 h w).2.2 = (blockRect W H b0 b1 (h + 1) w).2.1) ∧
  (∀ h w : ℕ, (blockRect W H b0 b1 h w).1.2 = (blockRect W H b0 b1 h (w + 1)).1.1) ∧
  (blockRect W H b0 b1 0 0).2.1 = 0 ∧
  (blockRect W H b0 b1 0 0).1.1 = 0 ∧
  (blockRect W H b0 b1 (rowsOf H b1 - 1) 0).2.2 = (rowsOf H b1 : ℚ) * (b1 : ℚ) / (H : ℚ) ∧
  (blockRect W H b0 b1 0 (colsOf W b0 - 1)).1.2 = (colsOf W b0 : ℚ) * (b0 : ℚ) / (W : ℚ) ∧
  (b1 ∣ H → (rowsOf H b1 : ℚ) * (b1 : ℚ) / (H : ℚ) = 1) ∧
  (b0 ∣ W → (colsOf W b0 : ℚ) * (b0 : ℚ) / (W : ℚ) = 1)

/-- The 128×128, blockDim 64 scenario: the grid is 2×2, the object of
`scenarioPts` is assigned exactly to cell (row 1, col 1) with border 0, and
that cell's file key is 4. -/
def BottomRightScenario : Prop :=
  rowsOf 128 64 = 2 ∧ colsOf 128 64 = 2 ∧
  mapBounds scenarioPts 2 2 0 = ⟨1, 1, 1, 1⟩ ∧
  (∀ i j : ℤ, assignedCell scenarioPts 2 2 0 i j ↔ i = 1 ∧ j = 1) ∧
  fileIndex (xDivQ 128 64) 1 1 = 4

/-- What the screen-extent clamp guarantees: each extremum clamps
asymmetrically, and a mesh fully outside the view on one axis — either the x
or the y axis — gets the full cell-index range of that axis,
`[-border, n - 1]`, which contains every valid index of the axis (in
particular it is never empty). -/
def OutsideFullRangeSpec (pts : List (ℚ × ℚ)) (cols rows border : ℕ) : Prop :=
  (∀ v : ℚ, v < 0 ∨ 1 ≤ v → clampMin v = 0) ∧
  (∀ v : ℚ, 1 < v ∨ v ≤ 0 → clampMax v = 1) ∧
  ((∀ p ∈ pts, 1 ≤ p.1) ∨ (∀ p ∈ pts, p.1 ≤ 0) →
    clampMin (screenBounds pts).left = 0 ∧
    clampMax (screenBounds pts).right = 1 ∧
    (mapBounds pts cols rows border).colMin = -(border : ℤ) ∧
    (mapBounds pts cols rows border).colMax = (cols : ℤ) - 1 ∧
    (∀ k : ℤ, 0 ≤ k → k ≤ (cols : ℤ) - 1 →
      (mapBounds pts cols rows border).colMin ≤ k ∧
      k ≤ (mapBounds pts cols rows border).colMax)) ∧
  ((∀ p ∈ pts, 1 ≤ p.2) ∨ (∀ p ∈ pts, p.2 ≤ 0) →
    clampMin (screenBounds pts).top = 0 ∧
    clampMax (screenBounds pts).bottom = 1 ∧
    (mapBounds pts cols rows border).rowMin = -(border : ℤ) ∧
    (mapBounds pts cols rows border).rowMax = (rows : ℤ) - 1 ∧
    (∀ k : ℤ, 0 ≤ k → k ≤ (rows : ℤ) - 1 →
      (mapBounds pts cols rows border).rowMin ≤ k ∧
      k ≤ (mapBounds pts cols rows border).rowMax))

/-- With border 0 every index the assignment loops can produce is a valid
block-map index: the four range endpoints lie in `[0, n-1]` for their axis,
and so does every loop index between them. -/
def SafeIndicesSpec (pts : List (ℚ × ℚ)) (cols rows : ℕ) : Prop :=
  (0 ≤ (mapBounds pts cols rows 0).colMin ∧
    (mapBounds pts cols rows 0).colMin ≤ (cols : ℤ) - 1) ∧
  (0 ≤ (mapBounds pts cols rows 0).colMax ∧
    (mapBounds pts cols rows 0).colMax ≤ (cols : ℤ) - 1) ∧
  (0 ≤ (mapBounds pts cols rows 0).rowMin ∧
    (mapBounds pts cols rows 0).rowMin ≤ (rows : ℤ) - 1) ∧
  (0 ≤ (mapBounds pts cols rows 0).rowMax ∧
    (mapBounds pts cols rows 0).rowMax ≤ (rows : ℤ) - 1) ∧
  (∀ i j : ℤ, assignedCell pts cols rows 0 i j →
    (0 ≤ i ∧ i ≤ (rows : ℤ) - 1) ∧ (0 ≤ j ∧ j ≤ (cols : ℤ) - 1))

/-! ## Helper lemmas -/

theorem pyInt_natCast (n : ℕ) : pyInt (n : ℚ) = n := by
  rw [pyInt, if_pos (by positivity)]
  exact Int.floor_natCast n

theorem pyInt_of_nonneg {q : ℚ} (h : 0 ≤ q) : pyInt q = ⌊q⌋ := if_pos h

theorem pyInt_nonpos_of_neg {q : ℚ} (h : q < 0) : pyInt q ≤ 0 := by
  rw [pyInt, if_neg (by exact not_le.mpr h)]
  have : (0 : ℤ) ≤ ⌊-q⌋ := Int.floor_nonneg.mpr (by linarith)
  omega

theorem floor_div_natCast (a b : ℕ) : ⌊(a : ℚ) / (b : ℚ)⌋ = (a / b : ℕ) := by
  rw [show ((a : ℚ)) = ((a : ℤ) : ℚ) by push_cast; ring, Rat.floor_intCast_div_natCast]
  omega

theorem postionDistanceSq_nonneg (posA posB : ℚ × ℚ × ℚ) : 0 ≤ postionDistanceSq posA posB := by
  unfold postionDistanceSq; positivity

/-- The floor of a real square root is the natural square root of the floor. -/
theorem floor_sqrt_toNat (x : ℝ) (hx : 0 ≤ x) : ⌊Real.sqrt x⌋ = Nat.sqrt (⌊x⌋.toNat) := by
  have hfl : (0 : ℤ) ≤ ⌊x⌋ := Int.floor_nonneg.mpr hx
  set m : ℕ := (⌊x⌋).toNat with hm
  have hmx : ((m : ℝ)) ≤ x := by
    have : ((m : ℤ) : ℝ) ≤ x := by
      rw [show ((m : ℤ)) = ⌊x⌋ by omega]
      exact Int.floor_le x
    exact_mod_cast this
  have hxm : x < (m : ℝ) + 1 := by
    have : x < ((⌊x⌋ : ℤ) : ℝ) + 1 := Int.lt_floor_add_one x
    have h2 : ((⌊x⌋ : ℤ) : ℝ) = (m : ℝ) := by
      rw [show ((⌊x⌋ : ℤ)) = (m : ℤ) by omega]; push_cast; ring
    linarith [h2 ▸ this]
  rw [Int.floor_eq_iff]
  constructor
  · calc ((Nat.sqrt m : ℤ) : ℝ) = (Nat.sqrt m : ℝ) := by push_cast; ring
      _ ≤ Real.sqrt (m : ℝ) := Real.nat_sqrt_le_real_sqrt
      _ ≤ Real.sqrt x := Real.sqrt_le_sqrt hmx
  · have hlt : x < ((Nat.sqrt m : ℝ) + 1) ^ 2 := by
      have h1 : m < (Nat.sqrt m + 1) ^ 2 := Nat.lt_succ_sqrt' m
      have h2 : ((m : ℝ)) + 1 ≤ ((Nat.sqrt m + 1 : ℕ) : ℝ) ^ 2 := by
        exact_mod_cast Nat.succ_le_of_lt h1
      push_cast at h2 ⊢
      linarith
    have := (Real.sqrt_lt' (by positivity : (0 : ℝ) < (Nat.sqrt m : ℝ) + 1)).mpr hlt
    push_cast
    linarith

/-- `int(sqrt s * 1e6)` computed by `microDist` is exactly `⌊10^6·√s⌋`. -/
theorem microDist_eq_floor (s : ℚ) (hs : 0 ≤ s) :
    (microDist s : ℤ) = ⌊(10 : ℝ) ^ 6 * Real.sqrt ((s : ℚ) : ℝ)⌋ := by
  have hsR : (0 : ℝ) ≤ ((s : ℚ) : ℝ) := by exact_mod_cast hs
  have hmul : (10 : ℝ) ^ 6 * Real.sqrt ((s : ℚ) : ℝ) = Real.sqrt (((s * 10 ^ 12 : ℚ) : ℝ)) := by
    push_cast
    rw [mul_comm (s : ℝ) ((10 : ℝ) ^ 12)]
    rw [show ((10 : ℝ) ^ 12) = ((10 : ℝ) ^ 6) ^ 2 by ring]
    rw [Real.sqrt_mul (by positivity) _, Real.sqrt_sq (by positivity)]
  rw [hmul, floor_sqrt_toNat _ (by exact_mod_cast mul_nonneg hs (by norm_num)), Rat.floor_cast]
  rw [microDist, pyInt_of_nonneg (mul_nonneg hs (by norm_num))]

theorem microDist_objA : microDist (25 / 4) = 2500000 := by
  have h : pyInt ((25 : ℚ) / 4 * 10 ^ 12) = 6250000000000 := by norm_num [pyInt]
  rw [microDist, h]
  exact (Nat.eq_sqrt'.mpr (by constructor <;> norm_num)).symm

theorem microDist_objB : microDist 1 = 1000000 := by
  have h : pyInt ((1 : ℚ) * 10 ^ 12) = 1000000000000 := by norm_num [pyInt]
  rw [microDist, h]
  exact (Nat.eq_sqrt'.mpr (by constructor <;> norm_num)).symm

theorem captionA_eval : captionFor "objA" (3/2, 2, 0) (0, 0, 0) = "objA with dist 2500000" := by
  have h1 : postionDistanceSq (3/2, 2, 0) (0, 0, 0) = 25 / 4 := by
    norm_num [postionDistanceSq]
  rw [captionFor, h1, microDist_objA]
  rfl

theorem captionB_eval : captionFor "objB" (0, 0, 1) (0, 0, 0) = "objB with dist 1000000" := by
  have h1 : postionDistanceSq (0, 0, 1) (0, 0, 0) = 1 := by
    norm_num [postionDistanceSq]
  rw [captionFor, h1, microDist_objB]
  rfl

theorem zeroPad_length (w : ℕ) (s : String) :
    (zeroPad w s).length = (w - s.length) + s.length := by
  rw [zeroPad, String.length_append]
  congr 1
  show (List.replicate (w - s.length) '0').length = w - s.length
  exact List.length_replicate _ _

theorem format06_length (n : ℕ) : 6 ≤ (format06 (n : ℤ)).length := by
  rw [format06, if_neg (by omega), zeroPad_length]
  omega

/-- The folded `left` extremum is the initial value or one of the points'
x-coordinates. -/
theorem foldl_sbStep_left (pts : List (ℚ × ℚ)) (b : ScreenBounds) :
    (pts.foldl sbStep b).left = b.left ∨ ∃ p ∈ pts, (pts.foldl sbStep b).left = p.1 := by
  induction pts generalizing b with
  | nil => exact Or.inl rfl
  | cons q qs ih =>
    rw [List.foldl_cons]
    rcases ih (sbStep b q) with h | ⟨p, hp, he⟩
    · rw [h]
      rcases min_choice b.left q.1 with h' | h'
      · exact Or.inl h'
      · exact Or.inr ⟨q, List.mem_cons_self q qs, h'⟩
    · exact Or.inr ⟨p, List.mem_cons_of_mem q hp, he⟩

/-- The folded `right` extremum is the initial value or one of the points'
x-coordinates. -/
theorem foldl_sbStep_right (pts : List (ℚ × ℚ)) (b : ScreenBounds) :
    (pts.foldl sbStep b).right = b.right ∨ ∃ p ∈ pts, (pts.foldl sbStep b).right = p.1 := by
  induction pts generalizing b with
  | nil => exact Or.inl rfl
  | cons q qs ih =>
    rw [List.foldl_cons]
    rcases ih (sbStep b q) with h | ⟨p, hp, he⟩
    · rw [h]
      rcases max_choice b.right q.1 with h' | h'
      · exact Or.inl h'
      · exact Or.inr ⟨q, List.mem_cons_self q qs, h'⟩
    · exact Or.inr ⟨p, List.mem_cons_of_mem q hp, he⟩

/-- The folded `top` extremum is the initial value or one of the points'
y-coordinates. -/
theorem foldl_sbStep_top (pts : List (ℚ × ℚ)) (b : ScreenBounds) :
    (pts.foldl sbStep b).top = b.top ∨ ∃ p ∈ pts, (pts.foldl sbStep b).top = p.2 := by
  induction pts generalizing b with
  | nil => exact Or.inl rfl
  | cons q qs ih =>
    rw [List.foldl_cons]
    rcases ih (sbStep b q) with h | ⟨p, hp, he⟩
    · rw [h]
      rcases min_choice b.top q.2 with h' | h'
      · exact Or.inl h'
      · exact Or.inr ⟨q, List.mem_cons_self q qs, h'⟩
    · exact Or.inr ⟨p, List.mem_cons_of_mem q hp, he⟩

/-- The folded `bottom` extremum is the initial value or one of the points'
y-coordinates. -/
theorem foldl_sbStep_bottom (pts : List (ℚ × ℚ)) (b : ScreenBounds) :
    (pts.foldl sbStep b).bottom = b.bottom ∨ ∃ p ∈ pts, (pts.foldl sbStep b).bottom = p.2 := by
  induction pts generalizing b with
  | nil => exact Or.inl rfl
  | cons q qs ih =>
    rw [List.foldl_cons]
    rcases ih (sbStep b q) with h | ⟨p, hp, he⟩
    · rw [h]
      rcases max_choice b.bottom q.2 with h' | h'
      · exact Or.inl h'
      · exact Or.inr ⟨q, List.mem_cons_self q qs, h'⟩
    · exact Or.inr ⟨p, List.mem_cons_of_mem q hp, he⟩

theorem clampMin_eq_zero {v : ℚ} (h : v ≤ 0 ∨ 1 ≤ v) : clampMin v = 0 := by
  rw [clampMin]
  rcases h with h | h
  · rcases lt_or_eq_of_le h with h' | h'
    · rw [if_pos (Or.inl h')]
    · rw [if_neg (by rw [h']; norm_num)]; exact h'
  · rw [if_pos (Or.inr h)]

theorem clampMax_eq_one {v : ℚ} (h : v ≤ 0 ∨ 1 ≤ v) : clampMax v = 1 := by
  rw [clampMax]
  rcases h with h | h
  · rw [if_pos (Or.inr h)]
  · rcases lt_or_eq_of_le h with h' | h'
    · rw [if_pos (Or.inl h')]
    · rw [if_neg (by rw [← h']; norm_num)]; exact h'.symm

theorem clampMin_bounds (v : ℚ) : 0 ≤ clampMin v ∧ clampMin v < 1 := by
  rw [clampMin]
  split
  · norm_num
  · next h => push_neg at h; exact ⟨h.1, h.2⟩

theorem clampMax_bounds (v : ℚ) : 0 < clampMax v ∧ clampMax v ≤ 1 := by
  rw [clampMax]
  split
  · norm_num
  · next h => push_neg at h; exact ⟨h.2, h.1⟩

/-- With border 0 the lower index is a valid cell index. -/
theorem axisLo_zero_bounds (v : ℚ) (n : ℕ) (hn : 1 ≤ n) :
    0 ≤ axisLo v n 0 ∧ axisLo v n 0 ≤ (n : ℤ) - 1 := by
  obtain ⟨h0, h1⟩ := clampMin_bounds v
  have hq : (0 : ℚ) ≤ clampMin v * (n : ℚ) := by positivity
  have hfl : 0 ≤ ⌊clampMin v * (n : ℚ)⌋ := Int.floor_nonneg.mpr hq
  have hlt : ⌊clampMin v * (n : ℚ)⌋ < (n : ℤ) := by
    rw [Int.floor_lt]
    push_cast
    calc clampMin v * (n : ℚ) < 1 * (n : ℚ) := by
          apply mul_lt_mul_of_pos_right h1
          exact_mod_cast Nat.lt_of_lt_of_le Nat.zero_lt_one hn
      _ = (n : ℚ) := one_mul _
  rw [axisLo, pyInt_of_nonneg hq]
  constructor
  · apply le_min (by omega) (by omega)
  · exact min_le_right _ _

/-- With border 0 the upper index is a valid cell index. -/
theorem axisHi_zero_bounds (v : ℚ) (n : ℕ) (hn : 1 ≤ n) :
    0 ≤ axisHi v n 0 ∧ axisHi v n 0 ≤ (n : ℤ) - 1 := by
  obtain ⟨h0, h1⟩ := clampMax_bounds v
  have hq : (0 : ℚ) ≤ clampMax v * (n : ℚ) := by positivity
  have hfl : 0 ≤ ⌊clampMax v * (n : ℚ)⌋ := Int.floor_nonneg.mpr hq
  rw [axisHi, pyInt_of_nonneg hq]
  constructor
  · apply le_min (by omega) (by omega)
  · exact min_le_right _ _

/-- The lower index computation is antitone in the border. -/
theorem axisLo_anti (v : ℚ) (n : ℕ) {b b' : ℕ} (h : b ≤ b') :
    axisLo v n b' ≤ axisLo v n b := by
  apply min_le_min _ le_rfl
  have : (b : ℤ) ≤ (b' : ℤ) := by exact_mod_cast h
  omega

/-- The upper index computation is monotone in the border. -/
theorem axisHi_mono (v : ℚ) (n : ℕ) {b b' : ℕ} (h : b ≤ b') :
    axisHi v n b ≤ axisHi v n b' := by
  apply min_le_min _ le_rfl
  have : (b : ℤ) ≤ (b' : ℤ) := by exact_mod_cast h
  omega

/-- When the clamped minimum collapsed to 0 the lower index is exactly
`-border`. -/
theorem axisLo_of_clamp_zero (v : ℚ) (n border : ℕ) (hn : 1 ≤ n)
    (hv : clampMin v = 0) : axisLo v n border = -(border : ℤ) := by
  have hnz : (1 : ℤ) ≤ (n : ℤ) := by exact_mod_cast hn
  rw [axisLo, hv, zero_mul, show pyInt 0 = 0 from pyInt_natCast 0,
    min_eq_left (by omega)]
  omega

/-- When the clamped maximum collapsed to 1 the upper index is exactly
`n - 1`. -/
theorem axisHi_of_clamp_one (v : ℚ) (n border : ℕ) (hv : clampMax v = 1) :
    axisHi v n border = (n : ℤ) - 1 := by
  rw [axisHi, hv, one_mul, show pyInt (n : ℚ) = (n : ℤ) from pyInt_natCast n,
    min_eq_right (by omega)]

/-! ## Claim theorems -/

/-- Claim C10: the captions returned by `extractSemantics` depend only on the
meshes and the screen sample point; the `neighbors` and `border` arguments
never influence the result. -/
theorem extractSemantics_ignores_neighbors_border
    (meshPos : String → ℚ × ℚ × ℚ) (view : ℤ → ℤ → ℚ × ℚ × ℚ)
    (meshes : List String) (screenPoint : ℚ × ℚ)
    (neighbors₁ neighbors₂ : List String) (border₁ border₂ : ℚ) :
    extractSemantics meshPos view meshes screenPoint neighbors₁ border₁
      = extractSemantics meshPos view meshes screenPoint neighbors₂ border₂ := rfl

/-- Claim C8: each caption is `"<id> with dist <n>"` where `n` is
`int(d·1e6)` (exactly `⌊10^6·√(distance²)⌋`) rendered zero-padded to at least
6 digits; distance 2.5 yields exactly `"objA with dist 2500000"`. -/
theorem caption_distance_format (mesh : String) (posA posB : ℚ × ℚ × ℚ) :
    captionFor mesh posA posB
      = mesh ++ " with dist "
        ++ format06 ⌊(10 : ℝ) ^ 6 * Real.sqrt ((postionDistanceSq posA posB : ℚ) : ℝ)⌋ ∧
    6 ≤ (format06 ((microDist (postionDistanceSq posA posB) : ℕ) : ℤ)).length ∧
    captionFor "objA" (3/2, 2, 0) (0, 0, 0) = "objA with dist 2500000" := by
  refine ⟨?_, format06_length _, captionA_eval⟩
  rw [captionFor, microDist_eq_floor _ (postionDistanceSq_nonneg posA posB)]

/-- Claim C6: every cell index pair the border-0 assignment loops produce for
a mesh is also produced by the border-2 loops with the same projected corners
and grid. -/
theorem assigned_border_monotone (pts : List (ℚ × ℚ)) (cols rows : ℕ) (i j : ℤ)
    (h : assignedCell pts cols rows 0 i j) : assignedCell pts cols rows 2 i j := by
  obtain ⟨h1, h2, h3, h4⟩ := h
  exact ⟨le_trans (axisLo_anti _ _ (by norm_num)) h1,
         le_trans h2 (axisHi_mono _ _ (by norm_num)),
         le_trans (axisLo_anti _ _ (by norm_num)) h3,
         le_trans h4 (axisHi_mono _ _ (by norm_num))⟩

theorem assigned_border_monotone_witness :
    assignedCell [((1 : ℚ)/4, (1 : ℚ)/2)] 2 2 0 1 0 ∧
    assignedCell [((1 : ℚ)/4, (1 : ℚ)/2)] 2 2 2 1 0 := by
  have hmb : mapBounds [((1 : ℚ)/4, (1 : ℚ)/2)] 2 2 0 = ⟨0, 1, 1, 1⟩ := by
    have hsb : screenBounds [((1 : ℚ)/4, (1 : ℚ)/2)] = ⟨1/4, 1/4, 1/2, 1/2⟩ := by
      norm_num [screenBounds, sbStep, min_def, max_def]
    rw [mapBounds, hsb]
    norm_num [axisLo, axisHi, clampMin, clampMax, pyInt, min_def]
  have h0 : assignedCell [((1 : ℚ)/4, (1 : ℚ)/2)] 2 2 0 1 0 := by
    rw [assignedCell, hmb]
    norm_num
  exact ⟨h0, assigned_border_monotone _ 2 2 1 0 h0⟩

/-- Claim C9: with border 0 the four computed cell indices always lie within
`[0, cols-1]` and `[0, rows-1]`, so the assignment loops never index the
block map out of range. -/
theorem border_zero_indices_safe (pts : List (ℚ × ℚ)) (cols rows : ℕ)
    (hc : 1 ≤ cols) (hr : 1 ≤ rows) : SafeIndicesSpec pts cols rows := by
  refine ⟨axisLo_zero_bounds _ _ hc, axisHi_zero_bounds _ _ hc,
    axisLo_zero_bounds _ _ hr, axisHi_zero_bounds _ _ hr, ?_⟩
  intro i j hij
  obtain ⟨h1, h2, h3, h4⟩ := hij
  have ha := axisLo_zero_bounds (screenBounds pts).top rows hr
  have hb := axisHi_zero_bounds (screenBounds pts).bottom rows hr
  have hcmin := axisLo_zero_bounds (screenBounds pts).left cols hc
  have hcmax := axisHi_zero_bounds (screenBounds pts).right cols hc
  exact ⟨⟨le_trans ha.1 h1, le_trans h2 hb.2⟩, ⟨le_trans hcmin.1 h3, le_trans h4 hcmax.2⟩⟩

theorem border_zero_indices_safe_witness :
    ((1 : ℕ) ≤ 2 ∧ (1 : ℕ) ≤ 2) ∧ SafeIndicesSpec [((3 : ℚ)/5, (3 : ℚ)/5)] 2 2 :=
  ⟨⟨by norm_num, by norm_num⟩,
   border_zero_indices_safe [((3 : ℚ)/5, (3 : ℚ)/5)] 2 2 (by norm_num) (by norm_num)⟩

/-- Claim C5: the screen extrema are clamped asymmetrically (a minimum below
0 or at/above 1 becomes 0; a maximum above 1 or at/below 0 becomes 1), so a
mesh fully outside the view on one axis — x or y — receives the full
cell-index range of that axis and never an empty one. -/
theorem outside_axis_full_range (pts : List (ℚ × ℚ)) (cols rows border : ℕ)
    (hc : 1 ≤ cols) (hr : 1 ≤ rows) :
    OutsideFullRangeSpec pts cols rows border := by
  refine ⟨fun v hv => clampMin_eq_zero (hv.imp le_of_lt id),
          fun v hv => clampMax_eq_one (hv.symm.imp id le_of_lt), ?_, ?_⟩
  · intro hout
    have hL : clampMin (screenBounds pts).left = 0 := by
      rcases foldl_sbStep_left pts ⟨1, 0, 1, 0⟩ with h | ⟨p, hp, he⟩
      · exact clampMin_eq_zero (Or.inr (le_of_eq h.symm))
      · rcases hout with hall | hall
        · exact clampMin_eq_zero (Or.inr (he ▸ hall p hp))
        · exact clampMin_eq_zero (Or.inl (he ▸ hall p hp))
    have hR : clampMax (screenBounds pts).right = 1 := by
      rcases foldl_sbStep_right pts ⟨1, 0, 1, 0⟩ with h | ⟨p, hp, he⟩
      · exact clampMax_eq_one (Or.inl (le_of_eq h))
      · rcases hout with hall | hall
        · exact clampMax_eq_one (Or.inr (he ▸ hall p hp))
        · exact clampMax_eq_one (Or.inl (he ▸ hall p hp))
    have hmin : (mapBounds pts cols rows border).colMin = -(border : ℤ) :=
      axisLo_of_clamp_zero _ _ _ hc hL
    have hmax : (mapBounds pts cols rows border).colMax = (cols : ℤ) - 1 :=
      axisHi_of_clamp_one _ _ _ hR
    refine ⟨hL, hR, hmin, hmax, ?_⟩
    intro k hk0 hk1
    rw [hmin, hmax]
    omega
  · intro hout
    have hT : clampMin (screenBounds pts).top = 0 := by
      rcases foldl_sbStep_top pts ⟨1, 0, 1, 0⟩ with h | ⟨p, hp, he⟩
      · exact clampMin_eq_zero (Or.inr (le_of_eq h.symm))
      · rcases hout with hall | hall
        · exact clampMin_eq_zero (Or.inr (he ▸ hall p hp))
        · exact clampMin_eq_zero (Or.inl (he ▸ hall p hp))
    have hB : clampMax (screenBounds pts).bottom = 1 := by
      rcases foldl_sbStep_bottom pts ⟨1, 0, 1, 0⟩ with h | ⟨p, hp, he⟩
      · exact clampMax_eq_one (Or.inl (le_of_eq h))
      · rcases hout with hall | hall
        · exact clampMax_eq_one (Or.inr (he ▸ hall p hp))
        · exact clampMax_eq_one (Or.inl (he ▸ hall p hp))
    have hmin : (mapBounds pts cols rows border).rowMin = -(border : ℤ) :=
      axisLo_of_clamp_zero _ _ _ hr hT
    have hmax : (mapBounds pts cols rows border).rowMax = (rows : ℤ) - 1 :=
      axisHi_of_clamp_one _ _ _ hB
    refine ⟨hT, hB, hmin, hmax, ?_⟩
    intro k hk0 hk1
    rw [hmin, hmax]
    omega

theorem outside_axis_full_range_witness :
    ((1 : ℕ) ≤ 4 ∧ (1 : ℕ) ≤ 5) ∧
    OutsideFullRangeSpec [((3 : ℚ)/2, (-1 : ℚ)/2)] 4 5 1 ∧
    (mapBounds [((3 : ℚ)/2, (-1 : ℚ)/2)] 4 5 1).colMin = -(1 : ℤ) ∧
    (mapBounds [((3 : ℚ)/2, (-1 : ℚ)/2)] 4 5 1).colMax = (4 : ℤ) - 1 ∧
    (mapBounds [((3 : ℚ)/2, (-1 : ℚ)/2)] 4 5 1).rowMin = -(1 : ℤ) ∧
    (mapBounds [((3 : ℚ)/2, (-1 : ℚ)/2)] 4 5 1).rowMax = (5 : ℤ) - 1 :=
  have h := outside_axis_full_range [((3 : ℚ)/2, (-1 : ℚ)/2)] 4 5 1
    (by norm_num) (by norm_num)
  have hx := h.2.2.1 (Or.inl (by norm_num))
  have hy := h.2.2.2 (Or.inr (by norm_num))
  ⟨⟨by norm_num, by norm_num⟩, h, hx.2.2.1, hx.2.2.2.1, hy.2.2.1, hy.2.2.2.1⟩

/-- Claim C2 (counterexample): at resolution 100×100 with blockDim 64 the
grid is 1×1, but the single cell is `[0, 16/25] × [0, 16/25]`: its bottom
edge is 16/25, not `(0+1)/rows = 1`, so the cells do not tile
`[0,1] × [0,1]`. -/
theorem grid_unit_tiling_counterexample :
    rowsOf 100 64 = 1 ∧ colsOf 100 64 = 1 ∧
    blockRect 100 100 64 64 0 0 = ((0, 16/25), (0, 16/25)) ∧
    ((16 : ℚ)/25 ≠ ((0 : ℚ) + 1) / 1) := by
  refine ⟨?_, ?_, ?_, by norm_num⟩
  · norm_num [rowsOf, yDivQ, pyInt]
  · norm_num [colsOf, xDivQ, pyInt]
  · norm_num [blockRect, xDivQ, yDivQ]

/-- Claim C2 (amended): the cell counts are the truncated quotients
`rows = ⌊H/b1⌋`, `cols = ⌊W/b0⌋`, but the cell edges are
`j·b0/W, (j+1)·b0/W` and `i·b1/H, (i+1)·b1/H` — divisions by `xDiv`/`yDiv`,
not by the cell counts — so the `rows × cols` cells abut with no gaps or
overlaps and tile `[0, cols·b0/W] × [0, rows·b1/H]` in row-major
top-to-bottom order; that is exactly `[0,1] × [0,1]` when `b0 ∣ W` and
`b1 ∣ H`. -/
theorem grid_cells_structure (W H b0 b1 : ℕ) (hb0 : 0 < b0) (hb1 : 0 < b1)
    (hbW : b0 ≤ W) (hbH : b1 ≤ H) : GridCellsSpec W H b0 b1 := by
  have hW : 0 < W := lt_of_lt_of_le hb0 hbW
  have hH : 0 < H := lt_of_lt_of_le hb1 hbH
  have hWq : (0 : ℚ) < (W : ℚ) := by exact_mod_cast hW
  have hHq : (0 : ℚ) < (H : ℚ) := by exact_mod_cast hH
  have hb0q : (0 : ℚ) < (b0 : ℚ) := by exact_mod_cast hb0
  have hb1q : (0 : ℚ) < (b1 : ℚ) := by exact_mod_cast hb1
  have hx : 0 < xDivQ W b0 := div_pos hWq hb0q
  have hy : 0 < yDivQ H b1 := div_pos hHq hb1q
  have hrows : rowsOf H b1 = H / b1 := by
    rw [rowsOf, yDivQ, pyInt_of_nonneg (by positivity), floor_div_natCast]
    exact Int.toNat_natCast _
  have hcols : colsOf W b0 = W / b0 := by
    rw [colsOf, xDivQ, pyInt_of_nonneg (by positivity), floor_div_natCast]
    exact Int.toNat_natCast _
  have hrows1 : 1 ≤ rowsOf H b1 := by
    rw [hrows]; exact (Nat.one_le_div_iff hb1).mpr hbH
  have hcols1 : 1 ≤ colsOf W b0 := by
    rw [hcols]; exact (Nat.one_le_div_iff hb0).mpr hbW
  have hrect : ∀ h w : ℕ, blockRect W H b0 b1 h w
      = (((w : ℚ) * (b0 : ℚ) / (W : ℚ), ((w : ℚ) + 1) * (b0 : ℚ) / (W : ℚ)),
         ((h : ℚ) * (b1 : ℚ) / (H : ℚ), ((h : ℚ) + 1) * (b1 : ℚ) / (H : ℚ))) := by
    intro h w
    rw [blockRect, xDivQ, yDivQ, div_div_eq_mul_div, div_div_eq_mul_div,
      div_div_eq_mul_div, div_div_eq_mul_div]
  have hlink : buildBlocks (xDivQ W b0) (yDivQ H b1)
      = (List.range (rowsOf H b1)).map
          (fun h => (List.range (colsOf W b0)).map (blockRect W H b0 b1 h)) := by
    rfl
  refine ⟨hrows, hcols, hlink, hrect, ?_, ?_, ?_, ?_, ?_, ?_, ?_, ?_, ?_, ?_⟩
  · intro h w
    rw [hrect]
    rw [div_lt_div_iff_of_pos_right hHq]
    have : (h : ℚ) < (h : ℚ) + 1 := by linarith
    exact mul_lt_mul_of_pos_right this hb1q
  · intro h w
    rw [hrect]
    rw [div_lt_div_iff_of_pos_right hWq]
    have : (w : ℚ) < (w : ℚ) + 1 := by linarith
    exact mul_lt_mul_of_pos_right this hb0q
  · intro h w
    rw [hrect, hrect]
    push_cast
    ring
  · intro h w
    rw [hrect, hrect]
    push_cast
    ring
  · rw [hrect]
    norm_num
  · rw [hrect]
    norm_num
  · rw [hrect, Nat.cast_sub hrows1]
    push_cast
    ring
  · rw [hrect, Nat.cast_sub hcols1]
    push_cast
    ring
  · intro hdvd
    have hmul : H / b1 * b1 = H := Nat.div_mul_cancel hdvd
    rw [hrows, show ((H / b1 : ℕ) : ℚ) * (b1 : ℚ) = (H : ℚ) from by exact_mod_cast hmul]
    exact div_self (ne_of_gt hHq)
  · intro hdvd
    have hmul : W / b0 * b0 = W := Nat.div_mul_cancel hdvd
    rw [hcols, show ((W / b0 : ℕ) : ℚ) * (b0 : ℚ) = (W : ℚ) from by exact_mod_cast hmul]
    exact div_self (ne_of_gt hWq)

theorem grid_cells_structure_witness :
    ((0 : ℕ) < 64 ∧ (0 : ℕ) < 64 ∧ (64 : ℕ) ≤ 128 ∧ (64 : ℕ) ≤ 128) ∧
    GridCellsSpec 128 128 64 64 :=
  ⟨⟨by norm_num, by norm_num, by norm_num, by norm_num⟩,
   grid_cells_structure 128 128 64 64 (by norm_num) (by norm_num) (by norm_num) (by norm_num)⟩

/-- Claim C3 (counterexample): for the cell in row 0, column 1 with 64×64
blocks, the sample point tuple is `(32, 96)` and `screenSpaceToWorldSpace`
hands its first component, 32 = blockHeight·(row + 0.5), to `viewToWorld` as
the x coordinate — but the claim requires x = blockWidth·(col + 0.5) = 96. -/
theorem sample_point_counterexample :
    screenPointFor 64 64 0 1 = (32, 96) ∧
    screenSpaceToWorldSpace (fun a b => ((a : ℚ), (b : ℚ), 0)) (screenPointFor 64 64 0 1)
      = (32, 96, 0) ∧
    (32 : ℚ) ≠ 64 * ((1 : ℚ) + 1/2) := by
  have h : screenPointFor 64 64 0 1 = (32, 96) := by
    norm_num [screenPointFor]
  refine ⟨h, ?_, by norm_num⟩
  rw [screenSpaceToWorldSpace, h]
  norm_num [pyInt]

/-- Claim C3 (amended): the sample point used for cell `(row i, col j)` is the
transposed pixel centre: `viewToWorld` receives
`x = blockHeight·(i + 0.5)` and `y = blockWidth·(j + 0.5)` (after the `int()`
truncation, `x = b1·i + b1/2` and `y = b0·j + b0/2` for even block sizes). -/
theorem sample_point_transposed (b0 b1 i j : ℕ) (view : ℤ → ℤ → ℚ × ℚ × ℚ)
    (h0 : 2 ∣ b0) (h1 : 2 ∣ b1) :
    screenPointFor b0 b1 i j = ((b1 : ℚ) * ((i : ℚ) + 1/2), (b0 : ℚ) * ((j : ℚ) + 1/2)) ∧
    screenSpaceToWorldSpace view (screenPointFor b0 b1 i j)
      = view ((b1 * i + b1 / 2 : ℕ) : ℤ) ((b0 * j + b0 / 2 : ℕ) : ℤ) := by
  refine ⟨rfl, ?_⟩
  obtain ⟨c, rfl⟩ := h1
  obtain ⟨d, rfl⟩ := h0
  rw [screenSpaceToWorldSpace]
  have e1 : (screenPointFor (2 * d) (2 * c) i j).1 = (((2 * c) * i + c : ℕ) : ℚ) := by
    rw [screenPointFor]
    push_cast
    ring
  have e2 : (screenPointFor (2 * d) (2 * c) i j).2 = (((2 * d) * j + d : ℕ) : ℚ) := by
    rw [screenPointFor]
    push_cast
    ring
  rw [e1, e2, pyInt_natCast, pyInt_natCast,
    show 2 * c * i + 2 * c / 2 = 2 * c * i + c from by omega,
    show 2 * d * j + 2 * d / 2 = 2 * d * j + d from by omega]

theorem sample_point_transposed_witness :
    ((2 : ℕ) ∣ 64 ∧ (2 : ℕ) ∣ 64) ∧
    (screenPointFor 64 64 0 1 = ((64 : ℚ) * ((0 : ℚ) + 1/2), (64 : ℚ) * ((1 : ℚ) + 1/2)) ∧
     screenSpaceToWorldSpace (fun a b => ((a : ℚ), (b : ℚ), 0)) (screenPointFor 64 64 0 1)
       = (fun a b => ((a : ℚ), (b : ℚ), 0)) ((64 * 0 + 64 / 2 : ℕ) : ℤ) ((64 * 1 + 64 / 2 : ℕ) : ℤ)) :=
  ⟨⟨by norm_num, by norm_num⟩,
   sample_point_transposed 64 64 0 1 (fun a b => ((a : ℚ), (b : ℚ), 0))
     (by norm_num) (by norm_num)⟩

/-- Claim C4 (counterexample): with width 300 and blockDim 64 the grid has 4
columns, but the file key of the cell in row 2, column 0 is
`int(2·(300/64) + 0 + 1) = 10`, not the raster index `2·4 + 0 + 1 = 9`. -/
theorem fileIndex_raster_counterexample :
    colsOf 300 64 = 4 ∧ fileIndex (xDivQ 300 64) 2 0 = 10 ∧ (10 : ℤ) ≠ 2 * 4 + 0 + 1 := by
  refine ⟨?_, ?_, by norm_num⟩
  · norm_num [colsOf, xDivQ, pyInt]
    rfl
  · norm_num [fileIndex, xDivQ, pyInt]

/-- Claim C4 (amended): the file key `int(i·xDiv + j + 1)` equals the 1-based
raster index `i·cols + j + 1` whenever the block width divides the
resolution width (`xDiv` is then the integer `cols`); the 128×128 blockDim-64
scenario behaves exactly as claimed: the grid is 2×2, the bottom-right object
is assigned only to cell (1,1), and that cell's key is 4. -/
theorem fileIndex_raster_and_scenario (W b0 i j : ℕ) (hb : 0 < b0) (hdvd : b0 ∣ W) :
    fileIndex (xDivQ W b0) i j = ((i * colsOf W b0 + j + 1 : ℕ) : ℤ) ∧
    BottomRightScenario := by
  constructor
  · obtain ⟨c, rfl⟩ := hdvd
    have hb0q : ((b0 : ℚ)) ≠ 0 := by positivity
    have hx : xDivQ (b0 * c) b0 = (c : ℚ) := by
      rw [xDivQ]
      push_cast
      rw [mul_comm, mul_div_assoc, div_self hb0q, mul_one]
    have hc : colsOf (b0 * c) b0 = c := by
      rw [colsOf, hx, pyInt_natCast]
      exact Int.toNat_natCast c
    rw [fileIndex, hx, hc]
    rw [show (i : ℚ) * (c : ℚ) + (j : ℚ) + 1 = ((i * c + j + 1 : ℕ) : ℚ) from by push_cast; ring]
    exact pyInt_natCast _
  · have hsb : screenBounds scenarioPts = ⟨3/5, 9/10, 3/5, 9/10⟩ := by
      norm_num [scenarioPts, bbPoints, worldSpaceToScreenSpace, idMat4, vecMatMul,
        screenBounds, sbStep, min_def, max_def]
    have hmb : mapBounds scenarioPts 2 2 0 = ⟨1, 1, 1, 1⟩ := by
      rw [mapBounds, hsb]
      norm_num [axisLo, axisHi, clampMin, clampMax, pyInt, min_def]
    refine ⟨?_, ?_, hmb, ?_, ?_⟩
    · norm_num [rowsOf, yDivQ, pyInt]
      rfl
    · norm_num [colsOf, xDivQ, pyInt]
      rfl
    · intro i' j'
      rw [assignedCell, hmb]
      dsimp only
      omega
    · norm_num [fileIndex, xDivQ, pyInt]

theorem fileIndex_raster_and_scenario_witness :
    ((0 : ℕ) < 64 ∧ (64 : ℕ) ∣ 128) ∧
    (fileIndex (xDivQ 128 64) 1 1 = ((1 * colsOf 128 64 + 1 + 1 : ℕ) : ℤ) ∧
     BottomRightScenario) :=
  ⟨⟨by norm_num, by norm_num⟩,
   fileIndex_raster_and_scenario 128 64 1 1 (by norm_num) (by norm_num)⟩

/-- Claim C7 (counterexample): blockDim = -64 is non-positive, yet nothing
fails before frame processing — setup returns the block counts (-2, -2) and
the frame loop starts on an empty grid; the failure that does eventually
occur, once a mesh's bounds are computed, is an IndexError at
`len(blocks[0])` inside frame processing, not any `InvalidConfiguration`
abort before it. -/
theorem no_invalid_configuration_counterexample :
    gridSetup 128 128 (-64) = Except.ok (-2, -2) ∧
    buildBlocks ((128 : ℚ) / (-64 : ℚ)) ((128 : ℚ) / (-64 : ℚ)) = [] ∧
    lenBlocksRow0 (buildBlocks ((128 : ℚ) / (-64 : ℚ)) ((128 : ℚ) / (-64 : ℚ)))
      = Except.error PyError.indexError := by
  have hp : pyInt ((128 : ℚ) / (-64 : ℚ)) = -2 := by norm_num [pyInt]
  have hb : buildBlocks ((128 : ℚ) / (-64 : ℚ)) ((128 : ℚ) / (-64 : ℚ)) = [] := by
    rw [buildBlocks, hp]
    rfl
  refine ⟨?_, hb, by rw [hb]; rfl⟩
  have hd : (((-64 : ℤ)) : ℚ) ≠ 0 := by norm_num
  rw [gridSetup]
  simp only [pyDiv, if_neg hd]
  norm_num [pyInt]
  rfl

/-- Claim C7 (amended): no `InvalidConfiguration` error exists.  The only
failure grid setup can raise is Python's ZeroDivisionError, raised exactly
when blockDim = 0 and before any frame is processed (the whole run aborts
with it and produces no frame).  Any nonzero blockDim — negative ones
included — passes setup; a negative blockDim yields an empty grid, and the
error that can then arise is an IndexError at `len(blocks[0])` when a mesh is
processed, inside frame processing rather than before it. -/
theorem setup_failure_only_zero_dim (resWidth resHeight dim : ℤ) (frameCount : ℕ) :
    gridSetup resWidth resHeight 0 = Except.error PyError.zeroDivisionError ∧
    runSemantics resWidth resHeight 0 frameCount
      = Except.error PyError.zeroDivisionError ∧
    (dim ≠ 0 → gridSetup resWidth resHeight dim
        = Except.ok (pyInt ((resHeight : ℚ) / (dim : ℚ)), pyInt ((resWidth : ℚ) / (dim : ℚ)))) ∧
    (dim < 0 → 0 < resHeight →
        buildBlocks ((resWidth : ℚ) / (dim : ℚ)) ((resHeight : ℚ) / (dim : ℚ)) = [] ∧
        lenBlocksRow0 (buildBlocks ((resWidth : ℚ) / (dim : ℚ)) ((resHeight : ℚ) / (dim : ℚ)))
          = Except.error PyError.indexError) := by
  have h0 : gridSetup resWidth resHeight 0 = Except.error PyError.zeroDivisionError := by
    rw [gridSetup]
    simp [pyDiv]
    rfl
  refine ⟨h0, ?_, ?_, ?_⟩
  · rw [runSemantics, h0]
    rfl
  · intro hd
    rw [gridSetup]
    simp [pyDiv, hd]
    rfl
  · intro hd hh
    have hyd : (resHeight : ℚ) / (dim : ℚ) < 0 :=
      div_neg_of_pos_of_neg (by exact_mod_cast hh) (by exact_mod_cast hd)
    have hnp := pyInt_nonpos_of_neg hyd
    have hb : buildBlocks ((resWidth : ℚ) / (dim : ℚ)) ((resHeight : ℚ) / (dim : ℚ)) = [] := by
      rw [buildBlocks, show (pyInt ((resHeight : ℚ) / (dim : ℚ))).toNat = 0 from by omega]
      rfl
    exact ⟨hb, by rw [hb]; rfl⟩

theorem setup_failure_only_zero_dim_witness :
    ((-64 : ℤ) ≠ 0 ∧ (-64 : ℤ) < 0 ∧ (0 : ℤ) < 128) ∧
    gridSetup 128 128 (-64)
      = Except.ok (pyInt ((128 : ℚ) / ((-64 : ℤ) : ℚ)), pyInt ((128 : ℚ) / ((-64 : ℤ) : ℚ))) ∧
    buildBlocks ((128 : ℚ) / ((-64 : ℤ) : ℚ)) ((128 : ℚ) / ((-64 : ℤ) : ℚ)) = [] ∧
    lenBlocksRow0 (buildBlocks ((128 : ℚ) / ((-64 : ℤ) : ℚ)) ((128 : ℚ) / ((-64 : ℤ) : ℚ)))
      = Except.error PyError.indexError ∧
    runSemantics 128 128 0 3 = Except.error PyError.zeroDivisionError :=
  ⟨⟨by norm_num, by norm_num, by norm_num⟩,
   (setup_failure_only_zero_dim 128 128 (-64) 3).2.2.1 (by norm_num),
   ((setup_failure_only_zero_dim 128 128 (-64) 3).2.2.2 (by norm_num) (by norm_num)).1,
   ((setup_failure_only_zero_dim 128 128 (-64) 3).2.2.2 (by norm_num) (by norm_num)).2,
   (setup_failure_only_zero_dim 128 128 (-64) 3).2.1⟩

/-- Claim C1 (code evaluation): a cell holding objA (distance 2.5) and objB
(distance 1.0) is written as two newline-terminated caption lines, because
`extractSemantics` wraps every caption in its own singleton row, so the
multi-caption join branch never runs; the ` and `-joined single line the
claim describes is not produced.  (Third conjunct: had the join branch run on
a row of two captions, Python's `prefix.join(caption)` would interleave the
separator between the characters of a caption, as `writeRowElse` shows.) -/
theorem cell_caption_lines_eval :
    writeBlockText (extractSemantics
        (fun mesh => if mesh = "objA" then ((3 : ℚ)/2, 2, 0) else (0, 0, 1))
        (fun _ _ => (0, 0, 0)) ["objA", "objB"] (0, 0) [] 0)
      = "objA with dist 2500000\nobjB with dist 1000000\n" ∧
    writeBlockText (extractSemantics
        (fun mesh => if mesh = "objA" then ((3 : ℚ)/2, 2, 0) else (0, 0, 1))
        (fun _ _ => (0, 0, 0)) ["objA", "objB"] (0, 0) [] 0)
      ≠ "objA with dist 2500000 and objB with dist 1000000\n" ∧
    writeRowElse ["ab", "cd"] = "abc and d" := by
  have hE : extractSemantics
      (fun mesh => if mesh = "objA" then ((3 : ℚ)/2, 2, 0) else (0, 0, 1))
      (fun _ _ => (0, 0, 0)) ["objA", "objB"] (0, 0) [] 0
      = [[captionFor "objA" (3/2, 2, 0) (0, 0, 0)], [captionFor "objB" (0, 0, 1) (0, 0, 0)]] := by
    rfl
  rw [hE, captionA_eval, captionB_eval]
  refine ⟨?_, ?_, ?_⟩
  · rfl
  · decide
  · rfl

end GenerateSemantics
